import Mathlib

/-
Verification development for the Codex-Line-Bot repository.

The repository maintains a per-group, per-user, per-month message tally for a
LINE chat bot.  Two implementations exist side by side:

* a Supabase Edge Function (supabase/functions/line-webhook/index.ts) backed by
  a PostgreSQL store whose schema and stored procedures live in the SQL
  migration files (src/unnamed/part_001 .. part_003);
* a Google Apps Script implementation (src/LineMonthlyCounter.gs) backed by a
  spreadsheet.

This file gives a shallow embedding of the data model and of the operations the
claims are about.  Conventions used throughout:

* SQL timestamps are modelled as `Int` seconds; `INTERVAL '7 days'` is
  `7 * 86400` seconds.
* JavaScript string truthiness (`if (x)` on a string-or-null value) is modelled
  by `truthy : Option String → Bool`: `none` and `some ""` are falsy.
* External collaborators (the LINE REST API, OpenAI, the JSON parser, the
  HMAC-SHA256 primitive of the platform crypto library) are modelled as
  oracle parameters (`World`, `parseBody`, `hmacBase64`); the control flow
  around them is translated from the source.
* `substring(0, n)` / truncation is modelled on the character list of the
  string (JavaScript counts UTF-16 units, Lean counts code points; none of the
  claims distinguishes the two).
-/

/-! ## JavaScript-style helpers -/

/-- JavaScript truthiness of a string-or-null value: `null`/`undefined` and the
empty string are falsy. -/
def truthy : Option String → Bool
  | some s => s != ""
  | none => false

/-- Model of JavaScript `s.substring(0, n)` (also of `s.substr`/`take`): the
first `n` characters of `s`. -/
def jsTake (s : String) (n : Nat) : String :=
  String.mk (s.toList.take n)

/-! ## Webhook payload types (line-webhook/index.ts, interfaces) -/

structure LineMessage where
  type : String
  id : String
  text : Option String
  deriving DecidableEq

structure LineSource where
  type : String
  userId : Option String
  groupId : Option String
  roomId : Option String
  deriving DecidableEq

structure LineWebhookEvent where
  type : String
  message : Option LineMessage
  source : LineSource
  timestamp : Int
  replyToken : Option String
  deriving DecidableEq

structure LineWebhookBody where
  destination : String
  events : List LineWebhookEvent
  deriving DecidableEq

/-- Model of `event.message?.text || ""`. -/
def msgText (ev : LineWebhookEvent) : String :=
  match ev.message with
  | some m => m.text.getD ""
  | none => ""

/-- Model of `event.message?.type === "text"`. -/
def msgTypeIsText (ev : LineWebhookEvent) : Bool :=
  match ev.message with
  | some m => m.type == "text"
  | none => false

/-! ## Persistent store (SQL migrations, src/unnamed/part_001..part_003) -/

/-- One row of the `message_counts` table (part_002).  The `id`,
`created_at` and `updated_at` bookkeeping columns play no role in any claim
and are omitted; the key columns and `count` are kept. -/
structure CountRow where
  group_id : String
  user_id : String
  year_month : String
  count : Nat
  deriving DecidableEq

/-- One row of the `user_names` / `group_names` cache tables (part_001). -/
structure NameRow where
  id : String
  name : String
  updated_at : Int
  deriving DecidableEq

/-- The relational store: `allowed_groups` (part_003), `message_counts`
(part_002), `user_names` and `group_names` (part_001). -/
structure Store where
  allowed_groups : List String
  message_counts : List CountRow
  user_names : List NameRow
  group_names : List NameRow
  deriving DecidableEq

def secondsPerDay : Int := 86400

/-- The `UNIQUE (group_id, user_id, year_month)` constraint
`unique_group_user_month` of the `message_counts` table. -/
def KeysUnique (rows : List CountRow) : Prop :=
  rows.Pairwise fun a b =>
    a.group_id ≠ b.group_id ∨ a.user_id ≠ b.user_id ∨ a.year_month ≠ b.year_month

instance (rows : List CountRow) : Decidable (KeysUnique rows) := by
  unfold KeysUnique
  exact List.instDecidablePairwise rows

/-- Row matches the key `(g, u, ym)`. -/
def keyEq (r : CountRow) (g u ym : String) : Bool :=
  r.group_id == g && r.user_id == u && r.year_month == ym

/-- SQL function `is_group_allowed` (part_003): existence check in
`allowed_groups`. -/
def is_group_allowed (st : Store) (g : String) : Bool :=
  st.allowed_groups.contains g

/-- SQL function `increment_message_count` (part_002):
`INSERT ... VALUES (g, u, ym, 1) ON CONFLICT (group_id, user_id, year_month)
DO UPDATE SET count = message_counts.count + 1`. -/
def increment_message_count (rows : List CountRow) (g u ym : String) :
    List CountRow :=
  if rows.any (fun r => keyEq r g u ym) then
    rows.map fun r =>
      if keyEq r g u ym then { r with count := r.count + 1 } else r
  else
    rows ++ [⟨g, u, ym, 1⟩]

/-- The count stored for a key, `0` when no row exists. -/
def countVal (rows : List CountRow) (g u ym : String) : Nat :=
  ((rows.find? (fun r => keyEq r g u ym)).map (fun r => r.count)).getD 0

/-- Upsert into a name-cache table keyed by `id`, setting
`updated_at = NOW()` (the common body of `upsert_user_name` and
`upsert_group_name` in part_001). -/
def upsertName (rows : List NameRow) (id name : String) (now : Int) :
    List NameRow :=
  if rows.any (fun r => r.id == id) then
    rows.map fun r => if r.id == id then ⟨id, name, now⟩ else r
  else
    rows ++ [⟨id, name, now⟩]

/-- SQL function `upsert_user_name` (part_001). -/
def upsert_user_name (st : Store) (uid name : String) (now : Int) : Store :=
  { st with user_names := upsertName st.user_names uid name now }

/-- SQL function `upsert_group_name` (part_001). -/
def upsert_group_name (st : Store) (gid name : String) (now : Int) : Store :=
  { st with group_names := upsertName st.group_names gid name now }

/-- SQL function `get_user_name` (part_001): returns the cached name if the
row exists and `updated_at > NOW() - INTERVAL '7 days'`, else NULL. -/
def get_user_name (st : Store) (now : Int) (uid : String) : Option String :=
  match st.user_names.find? (fun r => r.id == uid) with
  | some r => if now - 7 * secondsPerDay < r.updated_at then some r.name else none
  | none => none

/-- SQL function `get_group_name` (part_001): same with a 14-day TTL. -/
def get_group_name (st : Store) (now : Int) (gid : String) : Option String :=
  match st.group_names.find? (fun r => r.id == gid) with
  | some r => if now - 14 * secondsPerDay < r.updated_at then some r.name else none
  | none => none

/-! ## Command parser (line-webhook/index.ts, parseStatsRequest) -/

/-- Case-insensitive literal match (the `i` regex flag on the bot name):
returns the remaining input on success. -/
def matchCI : List Char → List Char → Option (List Char)
  | [], rest => some rest
  | _ :: _, [] => none
  | p :: ps, c :: cs => if p.toLower == c.toLower then matchCI ps cs else none

/-- The literal tail of the pattern. -/
def monthDirective : List Char := ['月', '發', '話']

def digitVal (c : Char) : Nat := c.toNat - '0'.toNat

/-- After `@botname` has been matched: `\s*(\d{1,2})月發話` with the greedy
two-digit attempt first (regex backtracking). -/
def statsAfterBot (cs : List Char) : Option Nat :=
  match cs.dropWhile Char.isWhitespace with
  | [] => none
  | d1 :: rest1 =>
    if d1.isDigit then
      match rest1 with
      | d2 :: rest2 =>
        if d2.isDigit && monthDirective.isPrefixOf rest2 then
          some (10 * digitVal d1 + digitVal d2)
        else if monthDirective.isPrefixOf rest1 then
          some (digitVal d1)
        else none
      | [] => none
    else none

/-- First match of `@botname\s*(\d{1,2})月發話` scanning left to right
(`text.match(pattern)` returns the leftmost match). -/
def findStatsMonth (bot : List Char) : List Char → Option Nat
  | [] => none
  | c :: cs =>
    if c == '@' then
      match matchCI bot cs with
      | some rest =>
        match statsAfterBot rest with
        | some m => some m
        | none => findStatsMonth bot cs
      | none => findStatsMonth bot cs
    else findStatsMonth bot cs

/-- Model of `String(month).padStart(2, "0")` for the month part of the key. -/
def pad2 (m : Nat) : String :=
  if m < 10 then "0" ++ toString m else toString m

/-- Model of the year-month key template: the year, a dash, the padded month. -/
def ymString (year m : Nat) : String :=
  toString year ++ "-" ++ pad2 m

/-- The captured month of the leftmost pattern match, range-checked to 1..12
(`parseStatsRequest` returns null for months outside the range). -/
def parseStatsMonthNum (text botName : String) : Option Nat :=
  match findStatsMonth botName.toList text.toList with
  | some m => if 1 ≤ m ∧ m ≤ 12 then some m else none
  | none => none

/-- Model of `parseStatsRequest(text, botName)`: the year-month key for the requested
month, using the current JST year. -/
def parseStatsRequest (text botName : String) (jstYear : Nat) : Option String :=
  (parseStatsMonthNum text botName).map (ymString jstYear)

/-- Model of `isStatsRequest(text, botName)`, defined as `parseStatsRequest(...) !== null`. -/
def isStatsRequest (text botName : String) : Bool :=
  (parseStatsMonthNum text botName).isSome

/-- Model of `isBotMentioned(text, botName)`: the case-insensitive pattern `@botname`
occurs somewhere in the text. -/
def isBotMentioned (text botName : String) : Bool :=
  go botName.toList text.toList
where
  go (bot : List Char) : List Char → Bool
    | [] => false
    | c :: cs => (c == '@' && (matchCI bot cs).isSome) || go bot cs

/-! ## External collaborators as oracles -/

/-- Outcomes of the external HTTP collaborators during one request: the LINE
profile/summary endpoints and the OpenAI chat endpoint.  `userProfileOk uid
gid = false` models a non-2xx response or a thrown fetch error (the source
treats both identically). -/
structure World where
  userProfileOk : String → String → Bool
  userProfileName : String → String → String
  groupSummaryOk : String → Bool
  groupSummaryName : String → String
  openaiOk : Bool
  aiText : String
  funnyText : String

/-- Model of `getUserProfile(userId, groupId, accessToken)`: on HTTP ok returns
`profile.displayName || userId`; on failure (non-ok or exception) returns
`userId.substring(0, 8) + "..."`. -/
def getUserProfile (w : World) (uid gid : String) : String :=
  if w.userProfileOk uid gid then
    let dn := w.userProfileName uid gid
    if dn != "" then dn else uid
  else
    jsTake uid 8 ++ "..."

/-- Model of `getGroupSummary(groupId, accessToken)`: on ok returns
`summary.groupName || groupId`; on failure `groupId.substring(0, 10) + "..."`. -/
def getGroupSummary (w : World) (gid : String) : String :=
  if w.groupSummaryOk gid then
    let gn := w.groupSummaryName gid
    if gn != "" then gn else gid
  else
    jsTake gid 10 ++ "..."

/-! ## Effects

Every store call and outbound HTTP call the webhook handler makes is recorded
as one `Effect`; the claims about "no store call", "no counter increment" and
"no name-cache write" are stated over these traces. -/

inductive Effect where
  | allowRead (groupId : String)
  | statsRead (groupId yearMonth : String)
  | increment (groupId userId yearMonth : String)
  | upsertUserName (userId name : String)
  | upsertGroupName (groupId name : String)
  | fetchUserProfile (userId : String)
  | fetchGroupSummary (groupId : String)
  | fetchAI
  | reply (replyToken text : String)
  deriving DecidableEq

/-! ## Name cache (getUserNameCached / getGroupNameCached) -/

/-- The fetch-and-cache path of `getUserNameCached`: call the LINE API, upsert
the result (`cacheUserName`), return it. -/
def fetchAndCacheUser (st : Store) (w : World) (now : Int) (uid gid : String) :
    String × Store × List Effect :=
  let name := getUserProfile w uid gid
  (name, upsert_user_name st uid name now,
   [Effect.fetchUserProfile uid, Effect.upsertUserName uid name])

/-- Model of `getUserNameCached(supabase, userId, groupId, accessToken)`: rpc
`get_user_name`; `if (data) return data;` else fetch from the LINE API and
cache.  Returns the name, the updated store, and the trace. -/
def getUserNameCachedE (st : Store) (w : World) (now : Int) (uid gid : String) :
    String × Store × List Effect :=
  match get_user_name st now uid with
  | some n => if n == "" then fetchAndCacheUser st w now uid gid else (n, st, [])
  | none => fetchAndCacheUser st w now uid gid

/-- The fetch-and-cache path of `getGroupNameCached`. -/
def fetchAndCacheGroup (st : Store) (w : World) (now : Int) (gid : String) :
    String × Store × List Effect :=
  let name := getGroupSummary w gid
  (name, upsert_group_name st gid name now,
   [Effect.fetchGroupSummary gid, Effect.upsertGroupName gid name])

/-- Model of `getGroupNameCached(supabase, groupId, accessToken)`. -/
def getGroupNameCachedE (st : Store) (w : World) (now : Int) (gid : String) :
    String × Store × List Effect :=
  match get_group_name st now gid with
  | some n => if n == "" then fetchAndCacheGroup st w now gid else (n, st, [])
  | none => fetchAndCacheGroup st w now gid

/-! ## Sorting (stable, descending by count)

`message_counts` rows are read with `.order("count", { ascending: false })`
(Supabase) and the Apps Script report sorts with the comparator
`(a, b) => b.count - a.count`.  Both order by count descending only.  The
ECMAScript comparator sort is stable, so ties keep the order in which the rows
were read; the embedding uses a stable insertion sort with the same
comparator. -/

/-- Insert `x` after every element whose key is `≥ key x` (the position a
stable comparator sort gives an element arriving later). -/
def insertDescBy (key : α → Nat) (x : α) : List α → List α
  | [] => [x]
  | y :: ys => if key y < key x then x :: y :: ys else y :: insertDescBy key x ys

/-- Stable sort, descending by `key`. -/
def sortDescBy (key : α → Nat) (l : List α) : List α :=
  l.foldl (fun acc x => insertDescBy key x acc) []

/-- The rows the Supabase stats query returns for `(g, ym)`:
`select user_id, count ... eq group_id g ... eq year_month ym ...
order count desc`. -/
def listStats (st : Store) (g ym : String) : List (String × Nat) :=
  (sortDescBy (fun r => r.count)
      (st.message_counts.filter fun r => r.group_id == g && r.year_month == ym)).map
    fun r => (r.user_id, r.count)

/-! ## Supabase stats reply (Deno.serve handler, stats branch) -/

/-- Rank marker: medals for the top three ranks, `"${rank}."` below. -/
def medalFor (rank : Nat) : String :=
  if rank == 1 then "🥇" else if rank == 2 then "🥈"
  else if rank == 3 then "🥉" else toString rank ++ "."

/-- The per-user loop of the stats branch: resolves each user name through the
cache, builds the ranked lines and the total.  Returns (lines, total,
store, trace). -/
def statsLoop (w : World) (now : Int) (gid : String) :
    List (String × Nat) → Nat → Store → List String × Nat × Store × List Effect
  | [], _, st => ([], 0, st, [])
  | (uid, cnt) :: rest, rank, st =>
    let r1 := getUserNameCachedE st w now uid gid
    let line := medalFor rank ++ " " ++ r1.1 ++ ": " ++ toString cnt ++ " 則"
    let r2 := statsLoop w now gid rest (rank + 1) r1.2.1
    (line :: r2.1, cnt + r2.2.1, r2.2.2.1, r1.2.2 ++ r2.2.2.2)

/-- The reply text for a month with no rows. -/
def noRecordsReply (m : Nat) : String :=
  "📊 " ++ toString m ++ "月發話統計\n\n目前沒有任何記錄"

/-- The reply text of the Supabase stats branch (index.ts line 474); no
truncation is applied anywhere on this path. -/
def statsReplyText (m : Nat) (lines : List String) (total numUsers : Nat) :
    String :=
  "📊 " ++ toString m ++ "月發話統計\n\n" ++ String.intercalate "\n" lines ++
    "\n\n📈 總計: " ++ toString total ++ " 則訊息\n👥 活躍人數: " ++
    toString numUsers ++ " 人"

/-! ## Webhook orchestrator (Deno.serve handler) -/

/-- Environment variables read by the handler. -/
structure Env where
  lineChannelSecret : Option String
  lineChannelAccessToken : Option String
  lineBotName : Option String
  supabaseUrl : Option String
  supabaseServiceKey : Option String
  openaiApiKey : Option String

/-- The stats-request / unknown-mention `if / else if` of the event loop.
Returns the store, the trace, and whether the loop `continue`d (the empty
stats case replies and skips the rest of the event body). -/
def statsMentionSection (env : Env) (w : World) (botName : String)
    (jstYear : Nat) (now : Int) (st : Store) (g text : String)
    (isTextMsg : Bool) (replyTok : Option String) :
    Store × List Effect × Bool :=
  if isTextMsg && (parseStatsMonthNum text botName).isSome &&
      truthy replyTok && truthy env.lineChannelAccessToken then
    let m := (parseStatsMonthNum text botName).getD 0
    let targetMonth := ymString jstYear m
    let tok := replyTok.getD ""
    let stats := listStats st g targetMonth
    if stats.isEmpty then
      (st, [Effect.statsRead g targetMonth, Effect.reply tok (noRecordsReply m)],
        true)
    else
      let r := statsLoop w now g stats 1 st
      (r.2.2.1,
        Effect.statsRead g targetMonth :: r.2.2.2 ++
          [Effect.reply tok (statsReplyText m r.1 r.2.1 stats.length)],
        false)
  else if isTextMsg && isBotMentioned text botName &&
      truthy replyTok && truthy env.lineChannelAccessToken then
    let tok := replyTok.getD ""
    if truthy env.openaiApiKey then
      (st, [Effect.fetchAI,
            Effect.reply tok (if w.openaiOk then w.aiText else w.funnyText)],
        false)
    else
      (st, [Effect.reply tok w.funnyText], false)
  else
    (st, [], false)

/-- The counting `if` at the end of the event loop: text messages that are not
stats requests are counted, after refreshing both name caches. -/
def countSection (w : World) (botName yearMonth : String) (now : Int)
    (st : Store) (g u text : String) (isTextMsg : Bool) :
    Store × List Effect × Nat :=
  if isTextMsg && !(isStatsRequest text botName) then
    let r1 := getGroupNameCachedE st w now g
    let r2 := getUserNameCachedE r1.2.1 w now u g
    let st3 :=
      { r2.2.1 with
        message_counts := increment_message_count r2.2.1.message_counts g u yearMonth }
    (st3, r1.2.2 ++ r2.2.2 ++ [Effect.increment g u yearMonth], 1)
  else
    (st, [], 0)

/-- One iteration of `for (const event of webhookBody.events)`. -/
def processEvent (env : Env) (w : World) (botName yearMonth : String)
    (jstYear : Nat) (now : Int) (st : Store) (ev : LineWebhookEvent) :
    Store × List Effect × Nat :=
  if ev.type == "message" && ev.source.type == "group" &&
      truthy ev.source.groupId && truthy ev.source.userId then
    let g := ev.source.groupId.getD ""
    let u := ev.source.userId.getD ""
    if !(is_group_allowed st g) then
      (st, [Effect.allowRead g], 0)
    else
      let text := msgText ev
      let isTextMsg := msgTypeIsText ev
      let sm := statsMentionSection env w botName jstYear now st g text isTextMsg
        ev.replyToken
      if sm.2.2 then
        (sm.1, Effect.allowRead g :: sm.2.1, 0)
      else
        let cs := countSection w botName yearMonth now sm.1 g u text isTextMsg
        (cs.1, Effect.allowRead g :: sm.2.1 ++ cs.2.1, cs.2.2)
  else
    (st, [], 0)

structure HttpRequest where
  method : String
  bodyText : String
  signatureHeader : Option String

/-- The full request handler (`Deno.serve` callback).  `parseBody` models
`JSON.parse` (returning `none` when it throws), `hmacBase64` models
`btoa(HMAC-SHA256(channelSecret, rawBody))` computed by the platform crypto
library; `verifySignature` is the comparison of the header with that value.
Result: HTTP status, final store, effect trace.  A `JSON.parse` throw is
caught by the outer try/catch, which returns status 500. -/
def handleRequest (env : Env) (w : World)
    (parseBody : String → Option LineWebhookBody)
    (hmacBase64 : String → String → String) (jstYear jstMonth : Nat)
    (now : Int) (st : Store) (req : HttpRequest) :
    Nat × Store × List Effect :=
  if req.method == "OPTIONS" then (204, st, [])
  else if req.method != "POST" then (405, st, [])
  else if !(truthy env.lineChannelSecret) || !(truthy env.supabaseUrl) ||
      !(truthy env.supabaseServiceKey) then
    (500, st, [])
  else if !(truthy req.signatureHeader) then (401, st, [])
  else if req.signatureHeader.getD "" !=
      hmacBase64 (env.lineChannelSecret.getD "") req.bodyText then
    (401, st, [])
  else
    match parseBody req.bodyText with
    | none => (500, st, [])
    | some body =>
      let botName := if truthy env.lineBotName then env.lineBotName.getD "" else "Bot"
      let yearMonth := ymString jstYear jstMonth
      let r := body.events.foldl
        (fun (acc : Store × List Effect × Nat) ev =>
          let p := processEvent env w botName yearMonth jstYear now acc.1 ev
          (p.1, acc.2.1 ++ p.2.1, acc.2.2 + p.2.2))
        (st, [], 0)
      (200, r.1, r.2.1)

/-! ## Apps Script report builder (src/LineMonthlyCounter.gs) -/

/-- One data row of a per-group monthly sheet: columns `User ID`,
`Display Name`, `Count` (the third cell after `Number(row[2]) || 0`). -/
structure SheetRow where
  userId : String
  displayName : String
  count : Nat
  deriving DecidableEq

/-- A row of the report: `{ name: row[1] || row[0] || '', count }`. -/
structure ReportRow where
  name : String
  count : Nat
  deriving DecidableEq

def toReportRow (r : SheetRow) : ReportRow :=
  ⟨if r.displayName != "" then r.displayName else r.userId, r.count⟩

/-- The row pipeline of `buildMonthlyReport_`: map to `{name, count}`, keep
rows with a name and a positive count, then
`rows.sort((a, b) => b.count - a.count)` (stable, by count only). -/
def reportRows (rows : List SheetRow) : List ReportRow :=
  sortDescBy (fun r => r.count)
    ((rows.map toReportRow).filter fun r => r.name != "" && r.count > 0)

/-- The fixed part of the report title after the month label. -/
def reportTitleSuffix : String :=
  "發話量統計\n本發話量bot仍在測試中，僅供參考\n請以管管po的統計為準"

def noDataSuffix : String := "\n尚無資料"

/-- Model of `buildMonthlyReport_(spreadsheet, groupId, groupName, command)` with
`command.monthLabel = monthNumber + '月'`.  `sheet = none` models a missing
sheet or one with `getLastRow() < 2`.  The final line of the source applies
the LINE 5000-character cap:
`responseText.length > 5000 ? responseText.substring(0, 5000) : responseText`. -/
def buildMonthlyReport (m : Nat) (sheet : Option (List SheetRow)) : String :=
  let title := toString m ++ "月" ++ reportTitleSuffix
  match sheet with
  | none => title ++ noDataSuffix
  | some rows =>
    let rs := reportRows rows
    if rs.isEmpty then title ++ noDataSuffix
    else
      let lines := rs.map fun r => r.name ++ " " ++ toString r.count
      let t := title ++ "\n" ++ String.intercalate "\n" lines
      if t.length > 5000 then jsTake t 5000 else t

/-! ## Concrete fixtures used by witnesses and counterexamples -/

/-- A world in which every external fetch fails. -/
def wFail : World :=
  { userProfileOk := fun _ _ => false
    userProfileName := fun _ _ => ""
    groupSummaryOk := fun _ => false
    groupSummaryName := fun _ => ""
    openaiOk := false
    aiText := ""
    funnyText := "窩不知道欸" }

/-- A world in which the LINE profile endpoint answers with a 5001-character
display name. -/
def wLongName : World :=
  { wFail with
    userProfileOk := fun _ _ => true
    userProfileName := fun _ _ => String.mk (List.replicate 5001 'x') }

def envW : Env :=
  { lineChannelSecret := some "secret"
    lineChannelAccessToken := some "token"
    lineBotName := some "Bot"
    supabaseUrl := some "url"
    supabaseServiceKey := some "key"
    openaiApiKey := none }

def emptyStore : Store := ⟨[], [], [], []⟩

/-- A store that allows group `"G"` and holds a stale (8-day-old relative to
`now = 700000`) cached name for user `"U12345678"`. -/
def stStale : Store :=
  { allowed_groups := ["G"]
    message_counts := []
    user_names := [⟨"U12345678", "Alice", 0⟩]
    group_names := [] }

/-- A concrete HMAC oracle for witnesses (the handler is parametric in it). -/
def hmacW : String → String → String := fun secret body => secret ++ "|" ++ body

/-- A body parser that always fails, for the malformed-JSON scenarios. -/
def parseNone : String → Option LineWebhookBody := fun _ => none

/-- A stats-request event (text `@Bot 3月發話`) with a reply token. -/
def evStatsW : LineWebhookEvent :=
  { type := "message"
    message := some ⟨"text", "mid1", some "@Bot 3月發話"⟩
    source := ⟨"group", some "U12345678", some "G", none⟩
    timestamp := 0
    replyToken := some "rtok" }

/-- The same stats-request event without a reply token. -/
def evStatsNoTokenW : LineWebhookEvent :=
  { evStatsW with replyToken := none }

/-- The sheet rows for the tie-break counterexample: counts B:5, A:5, C:2
stored in that order. -/
def tieSheetW : List SheetRow :=
  [⟨"B", "B", 5⟩, ⟨"A", "A", 5⟩, ⟨"C", "C", 2⟩]

def rowsW : List CountRow := [⟨"G", "U1", "2025-01", 4⟩, ⟨"G", "U2", "2025-01", 7⟩]

/-- Recognizer for LINE profile fetches in a trace. -/
def isUserFetch : Effect → Bool
  | Effect.fetchUserProfile _ => true
  | _ => false

/-- Number of LINE profile fetches in a trace. -/
def countUserFetches (es : List Effect) : Nat :=
  es.countP isUserFetch

/-- A serialized interleaving of `increment_message_count` calls: the store's
upsert is a single atomic SQL statement, so any concurrent execution is
equivalent to some sequence of the individual calls. -/
def applyIncrements (rows : List CountRow) (ops : List (String × String × String)) :
    List CountRow :=
  ops.foldl (fun acc k => increment_message_count acc k.1 k.2.1 k.2.2) rows

/-! # Theorems

Helper lemmas first, then one theorem per claim (with witnesses and
counterexamples where required). -/

/-! ## Stable descending sort -/

theorem mem_insertDescBy {α : Type} (key : α → Nat) (x y : α) (l : List α) :
    y ∈ insertDescBy key x l ↔ y = x ∨ y ∈ l := by
  induction l with
  | nil => simp [insertDescBy]
  | cons z zs ih =>
    rw [insertDescBy]
    by_cases hk : key z < key x
    · simp [hk]
    · simp only [if_neg hk, List.mem_cons, ih]
      tauto

theorem pairwise_insertDescBy {α : Type} (key : α → Nat) (x : α) (l : List α)
    (h : l.Pairwise fun a b => key b ≤ key a) :
    (insertDescBy key x l).Pairwise fun a b => key b ≤ key a := by
  induction l with
  | nil => simp [insertDescBy]
  | cons z zs ih =>
    rw [insertDescBy]
    rcases List.pairwise_cons.mp h with ⟨hz, hzs⟩
    by_cases hk : key z < key x
    · rw [if_pos hk]
      refine List.pairwise_cons.mpr ⟨?_, h⟩
      intro b hb
      rcases List.mem_cons.mp hb with hb | hb
      · subst hb; exact Nat.le_of_lt hk
      · exact Nat.le_trans (hz b hb) (Nat.le_of_lt hk)
    · rw [if_neg hk]
      refine List.pairwise_cons.mpr ⟨?_, ih hzs⟩
      intro b hb
      rcases (mem_insertDescBy key x b zs).mp hb with hb | hb
      · subst hb; exact Nat.le_of_not_lt hk
      · exact hz b hb

theorem foldl_insertDescBy_pairwise {α : Type} (key : α → Nat) (l acc : List α)
    (h : acc.Pairwise fun a b => key b ≤ key a) :
    (l.foldl (fun acc x => insertDescBy key x acc) acc).Pairwise
      fun a b => key b ≤ key a := by
  induction l generalizing acc with
  | nil => simpa using h
  | cons x xs ih => exact ih _ (pairwise_insertDescBy key x acc h)

theorem sortDescBy_pairwise {α : Type} (key : α → Nat) (l : List α) :
    (sortDescBy key l).Pairwise fun a b => key b ≤ key a :=
  foldl_insertDescBy_pairwise key l [] (by simp)

theorem insertDescBy_perm {α : Type} (key : α → Nat) (x : α) (l : List α) :
    List.Perm (insertDescBy key x l) (x :: l) := by
  induction l with
  | nil => simp [insertDescBy]
  | cons z zs ih =>
    rw [insertDescBy]
    by_cases hk : key z < key x
    · rw [if_pos hk]
    · rw [if_neg hk]
      exact (ih.cons z).trans (List.Perm.swap x z zs)

theorem foldl_insertDescBy_perm {α : Type} (key : α → Nat) (l acc : List α) :
    List.Perm (l.foldl (fun acc x => insertDescBy key x acc) acc) (acc ++ l) := by
  induction l generalizing acc with
  | nil => simp
  | cons x xs ih =>
    refine (ih (insertDescBy key x acc)).trans ?_
    refine List.Perm.trans (((insertDescBy_perm key x acc).append_right xs)) ?_
    exact List.perm_middle.symm

theorem sortDescBy_perm {α : Type} (key : α → Nat) (l : List α) :
    List.Perm (sortDescBy key l) l := by
  simpa using foldl_insertDescBy_perm key l []

theorem filter_insertDescBy {α : Type} (key : α → Nat) (c : Nat) (x : α)
    (l : List α) (h : l.Pairwise fun a b => key b ≤ key a) :
    (insertDescBy key x l).filter (fun a => key a == c) =
      l.filter (fun a => key a == c) ++ if key x == c then [x] else [] := by
  induction l with
  | nil =>
    rw [insertDescBy]
    by_cases hc : key x == c <;> simp [List.filter_cons, hc]
  | cons z zs ih =>
    rcases List.pairwise_cons.mp h with ⟨hz, hzs⟩
    rw [insertDescBy]
    by_cases hk : key z < key x
    · rw [if_pos hk]
      by_cases hc : key x == c
      · have hxc : key x = c := by simpa using hc
        have hnil : (z :: zs).filter (fun a => key a == c) = [] := by
          rw [List.filter_eq_nil_iff]
          intro a ha
          rcases List.mem_cons.mp ha with ha | ha
          · subst ha; simp; omega
          · have := hz a ha; simp; omega
        rw [List.filter_cons, if_pos hc, hnil]
        simp [hc]
      · rw [List.filter_cons, if_neg hc, if_neg hc, List.append_nil]
    · rw [if_neg hk]
      rw [List.filter_cons, List.filter_cons, ih hzs]
      by_cases hzc : key z == c
      · rw [if_pos hzc, if_pos hzc]; rfl
      · rw [if_neg hzc, if_neg hzc]

theorem foldl_insertDescBy_filter {α : Type} (key : α → Nat) (c : Nat)
    (l acc : List α) (h : acc.Pairwise fun a b => key b ≤ key a) :
    (l.foldl (fun acc x => insertDescBy key x acc) acc).filter
        (fun a => key a == c) =
      acc.filter (fun a => key a == c) ++ l.filter (fun a => key a == c) := by
  induction l generalizing acc with
  | nil => simp
  | cons x xs ih =>
    rw [List.foldl_cons, ih (insertDescBy key x acc) (pairwise_insertDescBy key x acc h),
      filter_insertDescBy key c x acc h, List.filter_cons]
    by_cases hc : key x == c
    · rw [if_pos hc, if_pos hc]; simp
    · rw [if_neg hc, if_neg hc]; simp

theorem sortDescBy_filter {α : Type} (key : α → Nat) (c : Nat) (l : List α) :
    (sortDescBy key l).filter (fun a => key a == c) =
      l.filter (fun a => key a == c) := by
  simpa using foldl_insertDescBy_filter key c l [] (by simp)

/-! ## C6 — report ordering -/

/-- C6 (counterexample): the claim asserts that report rows with equal counts
appear in ascending user_id order, in particular that counts stored as
{A:5, B:5, C:2} are reported as A, B, C.  The report sort
(`rows.sort((a, b) => b.count - a.count)` in `buildMonthlyReport_`, and
`.order("count", { ascending: false })` in the Supabase handler) compares by
count only; for sheet rows stored in the order B, A, C the report lists
B before A. -/
theorem report_tie_order_counterexample :
    ((reportRows tieSheetW).map fun r => r.name) = ["B", "A", "C"] ∧
    ((reportRows tieSheetW).map fun r => r.name) ≠ ["A", "B", "C"] := by
  constructor <;> decide

/-- C6 (amended): report rows are sorted descending by count and are exactly
the kept (named, positive-count) input rows; rows with equal counts keep the
order in which they were read from the store (the comparator sort is stable) —
they are not reordered by user id. -/
theorem report_rows_sorted_desc (rows : List SheetRow) :
    ((reportRows rows).Pairwise fun a b => b.count ≤ a.count) ∧
    List.Perm (reportRows rows)
      ((rows.map toReportRow).filter fun r => r.name != "" && r.count > 0) ∧
    ∀ c : Nat,
      (reportRows rows).filter (fun r => r.count == c) =
        ((rows.map toReportRow).filter fun r => r.name != "" && r.count > 0).filter
          (fun r : ReportRow => r.count == c) := by
  refine ⟨sortDescBy_pairwise _ _, sortDescBy_perm _ _, fun c => ?_⟩
  exact sortDescBy_filter (fun r : ReportRow => r.count) c _

/-! ## C1 / C2 — counter upsert -/

theorem keyEq_eq {r : CountRow} {g u ym : String} (h : keyEq r g u ym = true) :
    r.group_id = g ∧ r.user_id = u ∧ r.year_month = ym := by
  simpa [keyEq, Bool.and_eq_true, and_assoc] using h

theorem keyEq_of_eq {r : CountRow} {g u ym : String} (h1 : r.group_id = g)
    (h2 : r.user_id = u) (h3 : r.year_month = ym) : keyEq r g u ym = true := by
  simp [keyEq, h1, h2, h3]

theorem keyEq_update (r : CountRow) (g u ym g' u' ym' : String) :
    keyEq (if keyEq r g u ym then { r with count := r.count + 1 } else r) g' u' ym' =
      keyEq r g' u' ym' := by
  by_cases h : keyEq r g u ym = true
  · rw [if_pos h]
    rfl
  · rw [if_neg h]

theorem countVal_increment_self (rows : List CountRow) (g u ym : String) :
    countVal (increment_message_count rows g u ym) g u ym =
      countVal rows g u ym + 1 := by
  unfold increment_message_count
  by_cases h : rows.any (fun r => keyEq r g u ym) = true
  · rw [if_pos h, countVal, List.find?_map]
    have hp : ((fun r => keyEq r g u ym) ∘
        fun r => if keyEq r g u ym then { r with count := r.count + 1 } else r) =
        fun r => keyEq r g u ym := by
      funext r
      exact keyEq_update r g u ym g u ym
    rw [hp]
    have hsome : (rows.find? fun r => keyEq r g u ym).isSome := by
      rw [List.find?_isSome]
      simpa [List.any_eq_true] using h
    rcases Option.isSome_iff_exists.mp hsome with ⟨r0, hr0⟩
    have hk : keyEq r0 g u ym = true := by
      simpa using List.find?_some hr0
    rw [hr0]
    simp [countVal, hr0, hk]
  · rw [if_neg h, countVal, List.find?_append]
    have hnone : rows.find? (fun r => keyEq r g u ym) = none := by
      rw [List.find?_eq_none]
      intro a ha
      have := List.any_eq_false.mp (by simpa using h) a ha
      simp_all
    have hnew : keyEq (⟨g, u, ym, 1⟩ : CountRow) g u ym = true := by
      simp [keyEq]
    simp [countVal, hnone, hnew]

theorem countVal_increment_other (rows : List CountRow) (g u ym g' u' ym' : String)
    (hne : ¬(g = g' ∧ u = u' ∧ ym = ym')) :
    countVal (increment_message_count rows g u ym) g' u' ym' =
      countVal rows g' u' ym' := by
  unfold increment_message_count
  by_cases h : rows.any (fun r => keyEq r g u ym) = true
  · rw [if_pos h, countVal, List.find?_map]
    have hp : ((fun r => keyEq r g' u' ym') ∘
        fun r => if keyEq r g u ym then { r with count := r.count + 1 } else r) =
        fun r => keyEq r g' u' ym' := by
      funext r
      exact keyEq_update r g u ym g' u' ym'
    rw [hp]
    cases hf : rows.find? (fun r => keyEq r g' u' ym') with
    | none => simp [countVal, hf]
    | some r0 =>
      have hk' : keyEq r0 g' u' ym' = true := by
        simpa using List.find?_some hf
      have hk : keyEq r0 g u ym = false := by
        by_contra hcon
        have hk2 : keyEq r0 g u ym = true := by
          simpa using hcon
        rcases keyEq_eq hk2 with ⟨e1, e2, e3⟩
        rcases keyEq_eq hk' with ⟨f1, f2, f3⟩
        exact hne ⟨e1 ▸ f1, e2 ▸ f2, e3 ▸ f3⟩
      simp [countVal, hf, hk]
  · rw [if_neg h, countVal, List.find?_append]
    have hnew : keyEq (⟨g, u, ym, 1⟩ : CountRow) g' u' ym' = false := by
      by_contra hcon
      have hk2 : keyEq (⟨g, u, ym, 1⟩ : CountRow) g' u' ym' = true := by
        simpa using hcon
      rcases keyEq_eq hk2 with ⟨e1, e2, e3⟩
      exact hne ⟨e1, e2, e3⟩
    cases hf : rows.find? (fun r => keyEq r g' u' ym') with
    | none => simp [countVal, hf, hnew]
    | some r0 => simp [countVal, hf]

theorem keysUnique_increment (rows : List CountRow) (g u ym : String)
    (h : KeysUnique rows) : KeysUnique (increment_message_count rows g u ym) := by
  unfold KeysUnique at *
  unfold increment_message_count
  by_cases ha : rows.any (fun r => keyEq r g u ym) = true
  · rw [if_pos ha, List.pairwise_map]
    refine h.imp ?_
    intro a b hab
    by_cases hka : keyEq a g u ym = true <;>
      by_cases hkb : keyEq b g u ym = true <;>
      simpa [hka, hkb] using hab
  · rw [if_neg ha, List.pairwise_append]
    refine ⟨h, by simp, ?_⟩
    intro a hain b hb
    have hb' : b = (⟨g, u, ym, 1⟩ : CountRow) := by simpa using hb
    subst hb'
    have hk : keyEq a g u ym = false := by
      simpa using List.any_eq_false.mp (by simpa using ha) a hain
    by_contra hcon
    push_neg at hcon
    rcases hcon with ⟨e1, e2, e3⟩
    rw [keyEq_of_eq e1 e2 e3] at hk
    exact Bool.noConfusion hk

theorem filter_keyEq_length_le_one (rows : List CountRow) (g u ym : String)
    (h : KeysUnique rows) :
    (rows.filter fun r => keyEq r g u ym).length ≤ 1 := by
  induction rows with
  | nil => simp
  | cons r rs ih =>
    rcases List.pairwise_cons.mp h with ⟨hr, hrs⟩
    rw [List.filter_cons]
    by_cases hk : keyEq r g u ym = true
    · rw [if_pos hk]
      have hnil : rs.filter (fun r => keyEq r g u ym) = [] := by
        rw [List.filter_eq_nil_iff]
        intro a ha hka
        rcases keyEq_eq hk with ⟨e1, e2, e3⟩
        rcases keyEq_eq (by simpa using hka) with ⟨f1, f2, f3⟩
        rcases hr a ha with hne | hne | hne
        · exact hne (e1.trans f1.symm)
        · exact hne (e2.trans f2.symm)
        · exact hne (e3.trans f3.symm)
      simp [hnil]
    · rw [if_neg hk]
      exact ih hrs

/-- C1: `increment_message_count(group_id, user_id, year_month)` is an upsert:
with the `unique_group_user_month` constraint holding beforehand, if no row
exists for the key a row with count 1 is inserted, if a row exists its count
grows by exactly 1, and afterwards exactly one row exists for the key. -/
theorem increment_message_count_upsert (rows : List CountRow) (g u ym : String)
    (h : KeysUnique rows) :
    (rows.find? (fun r => keyEq r g u ym) = none →
      (increment_message_count rows g u ym).find? (fun r => keyEq r g u ym) =
        some ⟨g, u, ym, 1⟩) ∧
    (∀ r0, rows.find? (fun r => keyEq r g u ym) = some r0 →
      (increment_message_count rows g u ym).find? (fun r => keyEq r g u ym) =
        some { r0 with count := r0.count + 1 }) ∧
    ((increment_message_count rows g u ym).filter fun r => keyEq r g u ym).length
      = 1 := by
  refine ⟨?_, ?_, ?_⟩
  · intro hnone
    unfold increment_message_count
    have ha : ¬(rows.any (fun r => keyEq r g u ym) = true) := by
      intro hcon
      rcases List.any_eq_true.mp hcon with ⟨a, hain, hka⟩
      have := List.find?_eq_none.mp hnone a hain
      simp_all
    rw [if_neg ha, List.find?_append, hnone]
    simp [keyEq]
  · intro r0 hr0
    unfold increment_message_count
    have ha : rows.any (fun r => keyEq r g u ym) = true := by
      rw [List.any_eq_true]
      refine ⟨r0, List.mem_of_find?_eq_some hr0, ?_⟩
      have hk := List.find?_some hr0
      simpa using hk
    rw [if_pos ha, List.find?_map]
    have hp : ((fun r => keyEq r g u ym) ∘
        fun r => if keyEq r g u ym then { r with count := r.count + 1 } else r) =
        fun r => keyEq r g u ym := by
      funext r
      exact keyEq_update r g u ym g u ym
    have hk : keyEq r0 g u ym = true := by
      simpa using List.find?_some hr0
    rw [hp, hr0]
    simp [hk]
  · unfold increment_message_count
    by_cases ha : rows.any (fun r => keyEq r g u ym) = true
    · rw [if_pos ha, List.filter_map]
      have hp : ((fun r => keyEq r g u ym) ∘
          fun r => if keyEq r g u ym then { r with count := r.count + 1 } else r) =
          fun r => keyEq r g u ym := by
        funext r
        exact keyEq_update r g u ym g u ym
      rw [hp, List.length_map]
      have hle := filter_keyEq_length_le_one rows g u ym h
      have hge : 1 ≤ (rows.filter fun r => keyEq r g u ym).length := by
        rcases List.any_eq_true.mp ha with ⟨a, hain, hka⟩
        have hmem : a ∈ rows.filter fun r => keyEq r g u ym :=
          List.mem_filter.mpr ⟨hain, by simpa using hka⟩
        exact List.length_pos.mpr (List.ne_nil_of_mem hmem)
      omega
    · rw [if_neg ha, List.filter_append]
      have hnil : rows.filter (fun r => keyEq r g u ym) = [] := by
        rw [List.filter_eq_nil_iff]
        intro a hain
        have := List.any_eq_false.mp (by simpa using ha) a hain
        simpa using this
      rw [hnil]
      simp [keyEq]

/-- C1 witness. -/
theorem increment_message_count_upsert_witness :
    ((increment_message_count rowsW "G" "U1" "2025-01").filter fun r =>
      keyEq r "G" "U1" "2025-01").length = 1 :=
  (increment_message_count_upsert rowsW "G" "U1" "2025-01" (by decide)).2.2

/-- C2: no lost updates.  The store-side upsert is one atomic SQL statement
(`INSERT ... ON CONFLICT DO UPDATE`), so a concurrent execution of increments
is equivalent to some serialized interleaving; this theorem quantifies over
every interleaving `ops` (increments of arbitrary keys, in any order) and
shows the final count of a key grows by exactly the number of increments for
that key in the interleaving — N concurrent increments yield exactly +N. -/
theorem increment_message_count_no_lost_updates (rows : List CountRow)
    (ops : List (String × String × String)) (g u ym : String)
    (h : KeysUnique rows) :
    countVal (applyIncrements rows ops) g u ym =
      countVal rows g u ym + ops.count (g, u, ym) := by
  induction ops generalizing rows with
  | nil => simp [applyIncrements]
  | cons t rest ih =>
    have hstep : applyIncrements rows (t :: rest) =
        applyIncrements (increment_message_count rows t.1 t.2.1 t.2.2) rest := rfl
    rw [hstep, ih _ (keysUnique_increment rows t.1 t.2.1 t.2.2 h)]
    by_cases ht : t = (g, u, ym)
    · subst ht
      rw [countVal_increment_self]
      simp [List.count_cons]
      omega
    · have hne : ¬(t.1 = g ∧ t.2.1 = u ∧ t.2.2 = ym) := by
        obtain ⟨a, b, c⟩ := t
        intro hcon
        rcases hcon with ⟨e1, e2, e3⟩
        simp_all
      rw [countVal_increment_other rows t.1 t.2.1 t.2.2 g u ym hne]
      have hbeq : (t == (g, u, ym)) = false := by
        simpa using ht
      simp [List.count_cons, hbeq]

/-- C2 witness. -/
theorem increment_message_count_no_lost_updates_witness :
    countVal
      (applyIncrements rowsW
        [("G", "U1", "2025-01"), ("G", "U3", "2025-01"), ("G", "U1", "2025-01")])
      "G" "U1" "2025-01" = 6 :=
  (increment_message_count_no_lost_updates rowsW
    [("G", "U1", "2025-01"), ("G", "U3", "2025-01"), ("G", "U1", "2025-01")]
    "G" "U1" "2025-01" (by decide)).trans (by decide)

/-! ## C7 — report length bound -/

theorem jsTake_length (s : String) (n : Nat) :
    (jsTake s n).length = min n s.length := by
  have h : s.toList.length = s.length := rfl
  simp [jsTake, String.length_mk, List.length_take, h]

/-- C7 (counterexample): the claim asserts every report text is capped at
5000 characters.  The Supabase stats branch builds its reply without any
truncation; with one user whose resolved display name has 5001 characters the
produced reply text exceeds 5000 characters. -/
theorem stats_reply_length_counterexample :
    5000 <
      (statsReplyText 3 (statsLoop wLongName 0 "G" [("u1", 5)] 1 emptyStore).1
        (statsLoop wLongName 0 "G" [("u1", 5)] 1 emptyStore).2.1 1).length := by
  have h1 : (statsLoop wLongName 0 "G" [("u1", 5)] 1 emptyStore).1 =
      ["🥇" ++ " " ++ String.mk (List.replicate 5001 'x') ++ ": " ++ toString 5 ++
        " 則"] := rfl
  have h2 : (statsLoop wLongName 0 "G" [("u1", 5)] 1 emptyStore).2.1 = 5 := rfl
  rw [h1, h2]
  unfold statsReplyText
  rw [show String.intercalate "\n"
      ["🥇" ++ " " ++ String.mk (List.replicate 5001 'x') ++ ": " ++ toString 5 ++
        " 則"] =
      "🥇" ++ " " ++ String.mk (List.replicate 5001 'x') ++ ": " ++ toString 5 ++
        " 則" from rfl]
  simp only [String.length_append, String.length_mk, List.length_replicate]
  decide

/-- C7 (amended): the Apps Script report builder caps its output at the LINE
limit — for every month number and every sheet the produced text has at most
5000 characters, truncated rather than rejected.  The Supabase stats reply is
built without this cap (see the counterexample). -/
theorem buildMonthlyReport_length_le (m : Nat) (hm : m ≤ 12)
    (sheet : Option (List SheetRow)) :
    (buildMonthlyReport m sheet).length ≤ 5000 := by
  have hms : (toString m).length ≤ 2 := by interval_cases m <;> decide
  have hsuf : reportTitleSuffix.length = 35 := by decide
  have hnd : noDataSuffix.length = 5 := by decide
  have hmon : ("月" : String).length = 1 := by decide
  cases sheet with
  | none =>
    simp only [buildMonthlyReport, String.length_append]
    omega
  | some rows =>
    by_cases hre : (reportRows rows).isEmpty
    · simp only [buildMonthlyReport, hre, if_true, String.length_append]
      omega
    · simp only [buildMonthlyReport, hre, Bool.false_eq_true, if_false]
      split_ifs with ht
      · rw [jsTake_length]
        exact Nat.min_le_left _ _
      · omega

/-- C7 witness (amended theorem). -/
theorem buildMonthlyReport_length_le_witness :
    3 ≤ 12 ∧ (buildMonthlyReport 3 (some tieSheetW)).length ≤ 5000 :=
  ⟨by decide, buildMonthlyReport_length_le 3 (by decide) (some tieSheetW)⟩

/-! ## C8 — name-resolution fallback -/

/-- C8 (counterexample): the claim asserts that when the cache entry is stale
and the fetch fails, resolve returns the stale cached name.  With a stale
entry (name "Alice", written 8 days before the call) and a failing fetch, the
code returns the truncated id, not "Alice": `get_user_name` answers NULL for
stale rows, so the stale name is unreachable, and the fetch-failure path of
`getUserProfile` returns `userId.substring(0, 8) + "..."`. -/
theorem resolve_stale_fallback_counterexample :
    stStale.user_names.find? (fun r => r.id == "U12345678") =
        some ⟨"U12345678", "Alice", 0⟩ ∧
    (getUserNameCachedE stStale wFail 700000 "U12345678" "G").1 =
        "U1234567" ++ "..." ∧
    (getUserNameCachedE stStale wFail 700000 "U12345678" "G").1 ≠ "Alice" := by
  refine ⟨by decide, by decide, by decide⟩

/-- C8 (amended): when the cached entry is absent or stale (the store lookup
answers NULL) and the external fetch fails, resolve returns the first eight
characters of the user id followed by "..." — regardless of any stale cached
name — and the failure is absorbed: the caller always receives a name. -/
theorem resolve_fetch_failure_fallback (st : Store) (w : World) (now : Int)
    (uid gid : String) (hmiss : get_user_name st now uid = none)
    (hfail : w.userProfileOk uid gid = false) :
    (getUserNameCachedE st w now uid gid).1 = jsTake uid 8 ++ "..." := by
  simp [getUserNameCachedE, hmiss, fetchAndCacheUser, getUserProfile, hfail]

/-- C8 witness (amended theorem). -/
theorem resolve_fetch_failure_fallback_witness :
    (getUserNameCachedE stStale wFail 700000 "U12345678" "G").1 =
      jsTake "U12345678" 8 ++ "..." :=
  resolve_fetch_failure_fallback stStale wFail 700000 "U12345678" "G"
    (by decide) (by decide)

/-! ## C9 — name-cache TTL -/

theorem get_user_name_some (st : Store) (now : Int) (uid : String) (r : NameRow)
    (h : st.user_names.find? (fun q => q.id == uid) = some r) :
    get_user_name st now uid =
      if now - 7 * secondsPerDay < r.updated_at then some r.name else none := by
  unfold get_user_name
  rw [h]

theorem get_group_name_some (st : Store) (now : Int) (gid : String) (r : NameRow)
    (h : st.group_names.find? (fun q => q.id == gid) = some r) :
    get_group_name st now gid =
      if now - 14 * secondsPerDay < r.updated_at then some r.name else none := by
  unfold get_group_name
  rw [h]

theorem getUserNameCachedE_none (st : Store) (w : World) (now : Int)
    (uid gid : String) (h : get_user_name st now uid = none) :
    getUserNameCachedE st w now uid gid = fetchAndCacheUser st w now uid gid := by
  unfold getUserNameCachedE
  rw [h]

theorem getUserNameCachedE_some (st : Store) (w : World) (now : Int)
    (uid gid : String) (n : String) (h : get_user_name st now uid = some n) :
    getUserNameCachedE st w now uid gid =
      if n == "" then fetchAndCacheUser st w now uid gid else (n, st, []) := by
  unfold getUserNameCachedE
  rw [h]

theorem find?_overwrite (rows : List NameRow) (id nm : String) (t : Int)
    (ha : rows.any (fun r => r.id == id) = true) :
    (rows.map fun r => if r.id == id then (⟨id, nm, t⟩ : NameRow) else r).find?
      (fun r => r.id == id) = some ⟨id, nm, t⟩ := by
  induction rows with
  | nil => simp at ha
  | cons r rs ih =>
    by_cases hr : (r.id == id) = true
    · rw [show ((r :: rs).map fun r =>
          if r.id == id then (⟨id, nm, t⟩ : NameRow) else r) =
          (⟨id, nm, t⟩ : NameRow) ::
            (rs.map fun r => if r.id == id then (⟨id, nm, t⟩ : NameRow) else r)
          from by
            simp only [List.map_cons]
            rw [if_pos hr]]
      exact List.find?_cons_of_pos _ (by simp)
    · have ha' : rs.any (fun r => r.id == id) = true := by
        simpa [List.any_cons, hr] using ha
      rw [show ((r :: rs).map fun r =>
          if r.id == id then (⟨id, nm, t⟩ : NameRow) else r) =
          r :: (rs.map fun r => if r.id == id then (⟨id, nm, t⟩ : NameRow) else r)
          from by
            simp only [List.map_cons]
            rw [if_neg hr]]
      rw [List.find?_cons_of_neg _ (by simpa using hr)]
      exact ih ha'

theorem find?_upsertName (rows : List NameRow) (id nm : String) (t : Int) :
    (upsertName rows id nm t).find? (fun r => r.id == id) = some ⟨id, nm, t⟩ := by
  unfold upsertName
  by_cases ha : rows.any (fun r => r.id == id) = true
  · rw [if_pos ha]
    exact find?_overwrite rows id nm t ha
  · rw [if_neg ha, List.find?_append]
    have ha2 : rows.any (fun r => r.id == id) = false := by
      cases hb : rows.any (fun r => r.id == id)
      · rfl
      · exact absurd hb ha
    have hnone : rows.find? (fun r => r.id == id) = none := by
      rw [List.find?_eq_none]
      intro a hain
      have h2 := List.any_eq_false.mp ha2 a hain
      simpa using h2
    simp [hnone]

theorem getUserProfile_ne_empty (w : World) (uid gid : String) (h : uid ≠ "") :
    getUserProfile w uid gid ≠ "" := by
  unfold getUserProfile
  by_cases hok : w.userProfileOk uid gid = true
  · by_cases hdn : (w.userProfileName uid gid != "") = true
    · simp only [hok, if_true, hdn]
      simpa using hdn
    · simp only [hok, if_true, hdn, Bool.false_eq_true, if_false]
      exact h
  · simp only [hok, Bool.false_eq_true, if_false]
    intro he
    have hl := congrArg String.length he
    rw [String.length_append] at hl
    have h3 : ("..." : String).length = 3 := by decide
    have h0 : ("" : String).length = 0 := by decide
    omega

theorem countUserFetches_le_one (st : Store) (w : World) (now : Int)
    (uid gid : String) :
    countUserFetches (getUserNameCachedE st w now uid gid).2.2 ≤ 1 := by
  cases h : get_user_name st now uid with
  | none =>
    rw [getUserNameCachedE_none st w now uid gid h]
    simp [fetchAndCacheUser, countUserFetches, List.countP_cons, isUserFetch]
  | some n =>
    rw [getUserNameCachedE_some st w now uid gid n h]
    by_cases hn : (n == "") = true <;>
      simp [hn, fetchAndCacheUser, countUserFetches, List.countP_cons, isUserFetch]

theorem getUserNameCachedE_after_fetch (st : Store) (w1 w2 : World)
    (uid gid : String) (t1 t2 : Int) (hu : uid ≠ "")
    (ht : t2 < t1 + 7 * secondsPerDay) :
    getUserNameCachedE (fetchAndCacheUser st w1 t1 uid gid).2.1 w2 t2 uid gid =
      (getUserProfile w1 uid gid, (fetchAndCacheUser st w1 t1 uid gid).2.1, []) := by
  have hfind : (fetchAndCacheUser st w1 t1 uid gid).2.1.user_names.find?
      (fun q => q.id == uid) = some ⟨uid, getUserProfile w1 uid gid, t1⟩ :=
    find?_upsertName st.user_names uid (getUserProfile w1 uid gid) t1
  have hget : get_user_name (fetchAndCacheUser st w1 t1 uid gid).2.1 t2 uid =
      some (getUserProfile w1 uid gid) := by
    rw [get_user_name_some _ _ _ _ hfind]
    dsimp only
    rw [if_pos (by omega)]
  rw [getUserNameCachedE_some _ _ _ _ _ _ hget]
  have hne : ((getUserProfile w1 uid gid) == "") = false := by
    simpa using getUserProfile_ne_empty w1 uid gid hu
  simp [hne]

/-- C9: the cache lookups return the stored name exactly when the entry is
younger than the class-specific TTL (7 days for users, 14 days for groups),
treating an older entry as absent; and two user-name resolutions within the
user TTL window perform at most one external profile fetch in total. -/
theorem name_cache_ttl_and_single_fetch :
    (∀ (st : Store) (now : Int) (uid : String) (r : NameRow),
        st.user_names.find? (fun q => q.id == uid) = some r →
        (get_user_name st now uid = some r.name ↔
          now - r.updated_at < 7 * secondsPerDay)) ∧
    (∀ (st : Store) (now : Int) (gid : String) (r : NameRow),
        st.group_names.find? (fun q => q.id == gid) = some r →
        (get_group_name st now gid = some r.name ↔
          now - r.updated_at < 14 * secondsPerDay)) ∧
    (∀ (st : Store) (w1 w2 : World) (uid gid : String) (t1 t2 : Int),
        uid ≠ "" → t2 < t1 + 7 * secondsPerDay →
        countUserFetches (getUserNameCachedE st w1 t1 uid gid).2.2 +
          countUserFetches
            (getUserNameCachedE (getUserNameCachedE st w1 t1 uid gid).2.1 w2 t2
              uid gid).2.2 ≤ 1) := by
  refine ⟨?_, ?_, ?_⟩
  · intro st now uid r hr
    rw [get_user_name_some st now uid r hr]
    constructor
    · intro hsome
      by_cases hfresh : now - 7 * secondsPerDay < r.updated_at
      · omega
      · rw [if_neg hfresh] at hsome
        exact absurd hsome (by simp)
    · intro hage
      rw [if_pos (by omega)]
  · intro st now gid r hr
    rw [get_group_name_some st now gid r hr]
    constructor
    · intro hsome
      by_cases hfresh : now - 14 * secondsPerDay < r.updated_at
      · omega
      · rw [if_neg hfresh] at hsome
        exact absurd hsome (by simp)
    · intro hage
      rw [if_pos (by omega)]
  · intro st w1 w2 uid gid t1 t2 hu ht
    cases hga : get_user_name st t1 uid with
    | none =>
      rw [getUserNameCachedE_none st w1 t1 uid gid hga,
        getUserNameCachedE_after_fetch st w1 w2 uid gid t1 t2 hu ht]
      simp [fetchAndCacheUser, countUserFetches, List.countP_cons, isUserFetch]
    | some n =>
      by_cases hn : (n == "") = true
      · rw [getUserNameCachedE_some st w1 t1 uid gid n hga, if_pos hn,
          getUserNameCachedE_after_fetch st w1 w2 uid gid t1 t2 hu ht]
        simp [fetchAndCacheUser, countUserFetches, List.countP_cons, isUserFetch]
      · rw [getUserNameCachedE_some st w1 t1 uid gid n hga, if_neg hn]
        have h2 := countUserFetches_le_one st w2 t2 uid gid
        simpa [countUserFetches] using h2

/-- C9 witness. -/
theorem name_cache_ttl_and_single_fetch_witness :
    get_user_name stStale 600000 "U12345678" = some "Alice" ∧
    countUserFetches (getUserNameCachedE emptyStore wFail 0 "u1" "G").2.2 +
      countUserFetches
        (getUserNameCachedE (getUserNameCachedE emptyStore wFail 0 "u1" "G").2.1
          wFail 100 "u1" "G").2.2 ≤ 1 := by
  constructor
  · exact (name_cache_ttl_and_single_fetch.1 stStale 600000 "U12345678"
      ⟨"U12345678", "Alice", 0⟩ (by decide)).mpr (by decide)
  · exact name_cache_ttl_and_single_fetch.2.2 emptyStore wFail wFail "u1" "G" 0 100
      (by decide) (by decide)

/-! ## C3 / C5 — request-level rejections -/

/-- C3: with the configuration present and a POST request, a missing
`X-Line-Signature` header, an empty one, or one that differs from the
base64 HMAC-SHA256 of the raw body under the channel secret makes the handler
answer 401 with no further processing: the store is untouched and the effect
trace is empty (no store call, no increment). -/
theorem webhook_bad_signature_rejected (env : Env) (w : World)
    (parseBody : String → Option LineWebhookBody)
    (hmacBase64 : String → String → String) (jy jm : Nat) (now : Int)
    (st : Store) (req : HttpRequest) (hm : req.method = "POST")
    (hs : truthy env.lineChannelSecret = true)
    (hu : truthy env.supabaseUrl = true)
    (hk : truthy env.supabaseServiceKey = true)
    (hsig : ∀ s, req.signatureHeader = some s →
      s ≠ hmacBase64 (env.lineChannelSecret.getD "") req.bodyText) :
    handleRequest env w parseBody hmacBase64 jy jm now st req = (401, st, []) := by
  have h1 : (req.method == "OPTIONS") = false := by
    rw [hm]
    decide
  have h2 : (req.method != "POST") = false := by
    rw [hm]
    decide
  cases hh : req.signatureHeader with
  | none =>
    have htf : truthy (none : Option String) = false := rfl
    simp [handleRequest, h1, h2, hs, hu, hk, hh, htf]
  | some s =>
    have hne := hsig s hh
    by_cases hse : s = ""
    · subst hse
      have htf : truthy (some "") = false := by decide
      simp [handleRequest, h1, h2, hs, hu, hk, hh, htf]
    · have hbne : (s != hmacBase64 (env.lineChannelSecret.getD "") req.bodyText)
          = true := by
        simpa using hne
      have htt : truthy (some s) = true := by
        simp [truthy, hse]
      simp [handleRequest, h1, h2, hs, hu, hk, hh, htt, hbne]

/-- C3 witness. -/
theorem webhook_bad_signature_rejected_witness :
    handleRequest envW wFail parseNone hmacW 2026 3 0 emptyStore
      ⟨"POST", "body", some "bad"⟩ = (401, emptyStore, []) :=
  webhook_bad_signature_rejected envW wFail parseNone hmacW 2026 3 0 emptyStore
    ⟨"POST", "body", some "bad"⟩ rfl (by decide) (by decide) (by decide)
    (by
      intro s hs
      injection hs with h
      subst h
      decide)

/-- C5 (counterexample): the claim asserts HTTP 400 for a POST whose body is
not parsable as JSON after the signature check passes.  The `JSON.parse` throw
is caught by the handler's outer try/catch, which answers HTTP 500
("Internal server error"), not 400; no events are processed and no store call
is made. -/
theorem webhook_unparsable_body_counterexample :
    (handleRequest envW wFail parseNone hmacW 2026 3 0 emptyStore
        ⟨"POST", "not json", some (hmacW "secret" "not json")⟩).1 = 500 ∧
    (handleRequest envW wFail parseNone hmacW 2026 3 0 emptyStore
        ⟨"POST", "not json", some (hmacW "secret" "not json")⟩).1 ≠ 400 ∧
    (handleRequest envW wFail parseNone hmacW 2026 3 0 emptyStore
        ⟨"POST", "not json", some (hmacW "secret" "not json")⟩).2.2 = [] := by
  refine ⟨by decide, by decide, by decide⟩

/-- C5 (amended): for a POST request that passes the signature check and whose
body fails to parse as JSON, the handler answers HTTP 500 (the outer
try/catch), processes no events, and makes no store calls. -/
theorem webhook_unparsable_body_500 (env : Env) (w : World)
    (parseBody : String → Option LineWebhookBody)
    (hmacBase64 : String → String → String) (jy jm : Nat) (now : Int)
    (st : Store) (req : HttpRequest) (hm : req.method = "POST")
    (hs : truthy env.lineChannelSecret = true)
    (hu : truthy env.supabaseUrl = true)
    (hk : truthy env.supabaseServiceKey = true)
    (hsig : req.signatureHeader =
      some (hmacBase64 (env.lineChannelSecret.getD "") req.bodyText))
    (hsne : hmacBase64 (env.lineChannelSecret.getD "") req.bodyText ≠ "")
    (hp : parseBody req.bodyText = none) :
    handleRequest env w parseBody hmacBase64 jy jm now st req = (500, st, []) := by
  have h1 : (req.method == "OPTIONS") = false := by
    rw [hm]
    decide
  have h2 : (req.method != "POST") = false := by
    rw [hm]
    decide
  have htt : truthy (some (hmacBase64 (env.lineChannelSecret.getD "")
      req.bodyText)) = true := by
    simp [truthy, hsne]
  simp [handleRequest, h1, h2, hs, hu, hk, hsig, htt, hp]

/-- C5 witness (amended theorem). -/
theorem webhook_unparsable_body_500_witness :
    handleRequest envW wFail parseNone hmacW 2026 3 0 emptyStore
      ⟨"POST", "oops", some (hmacW "secret" "oops")⟩ = (500, emptyStore, []) :=
  webhook_unparsable_body_500 envW wFail parseNone hmacW 2026 3 0 emptyStore
    ⟨"POST", "oops", some (hmacW "secret" "oops")⟩ rfl (by decide) (by decide)
    (by decide) rfl (by decide) rfl

/-! ## C4 / C10 — report requests and counting -/

theorem getUserNameCachedE_no_increment (st : Store) (w : World) (now : Int)
    (uid gid : String) (g u ym : String) :
    Effect.increment g u ym ∉ (getUserNameCachedE st w now uid gid).2.2 := by
  cases h : get_user_name st now uid with
  | none =>
    rw [getUserNameCachedE_none st w now uid gid h]
    simp [fetchAndCacheUser]
  | some n =>
    rw [getUserNameCachedE_some st w now uid gid n h]
    by_cases hn : (n == "") = true <;> simp [hn, fetchAndCacheUser]

theorem statsLoop_no_increment (w : World) (now : Int) (gid : String)
    (stats : List (String × Nat)) (rank : Nat) (st : Store) (g u ym : String) :
    Effect.increment g u ym ∉ (statsLoop w now gid stats rank st).2.2.2 := by
  induction stats generalizing rank st with
  | nil => simp [statsLoop]
  | cons p rest ih =>
    rw [statsLoop]
    simp only [List.mem_append]
    intro hmem
    rcases hmem with hmem | hmem
    · exact getUserNameCachedE_no_increment st w now p.1 gid g u ym hmem
    · exact ih _ _ hmem

theorem statsMentionSection_no_increment (env : Env) (w : World)
    (botName : String) (jstYear : Nat) (now : Int) (st : Store)
    (g text : String) (isTextMsg : Bool) (replyTok : Option String)
    (g' u' ym' : String) :
    Effect.increment g' u' ym' ∉
      (statsMentionSection env w botName jstYear now st g text isTextMsg
        replyTok).2.1 := by
  unfold statsMentionSection
  by_cases hA : (isTextMsg && (parseStatsMonthNum text botName).isSome &&
      truthy replyTok && truthy env.lineChannelAccessToken) = true
  · simp only [hA, if_true]
    by_cases hE : (listStats st g
        (ymString jstYear ((parseStatsMonthNum text botName).getD 0))).isEmpty
    · simp [hE]
    · simp only [hE, Bool.false_eq_true, if_false]
      intro hmem
      rcases List.mem_cons.mp hmem with hmem | hmem
      · exact Effect.noConfusion hmem
      rcases List.mem_append.mp hmem with hmem | hmem
      · exact statsLoop_no_increment w now g _ 1 st g' u' ym' hmem
      · exact Effect.noConfusion (List.mem_singleton.mp hmem)
  · simp only [hA, Bool.false_eq_true, if_false]
    by_cases hB : (isTextMsg && isBotMentioned text botName && truthy replyTok &&
        truthy env.lineChannelAccessToken) = true
    · simp only [hB, if_true]
      by_cases hO : truthy env.openaiApiKey = true <;> simp [hO]
    · simp [hB]

theorem countSection_skip (w : World) (botName yearMonth : String) (now : Int)
    (st : Store) (g u text : String) (isTextMsg : Bool)
    (hsr : isStatsRequest text botName = true) :
    countSection w botName yearMonth now st g u text isTextMsg = (st, [], 0) := by
  unfold countSection
  simp [hsr]

/-- C4: an event whose message text the parser classifies as a report command
(`parseStatsRequest` returns a month) never triggers the counter increment for
that event: no `increment` effect appears in the event's trace.  The counting
branch requires `!isStatsRequest(text)`, which is the same parser call. -/
theorem stats_request_not_counted (env : Env) (w : World)
    (botName yearMonth : String) (jstYear : Nat) (now : Int) (st : Store)
    (ev : LineWebhookEvent)
    (hp : (parseStatsMonthNum (msgText ev) botName).isSome = true) :
    ∀ g u ym, Effect.increment g u ym ∉
      (processEvent env w botName yearMonth jstYear now st ev).2.1 := by
  intro g u ym
  have hsr : isStatsRequest (msgText ev) botName = true := by
    simpa [isStatsRequest] using hp
  by_cases hguard : (ev.type == "message" && ev.source.type == "group" &&
      truthy ev.source.groupId && truthy ev.source.userId) = true
  · by_cases hallow : is_group_allowed st (ev.source.groupId.getD "") = true
    · simp only [processEvent, hguard, if_true, hallow, Bool.not_true,
        Bool.false_eq_true, if_false]
      rw [countSection_skip w botName yearMonth now _ _ _ _ _ hsr]
      by_cases hcont : (statsMentionSection env w botName jstYear now st
          (ev.source.groupId.getD "") (msgText ev) (msgTypeIsText ev)
          ev.replyToken).2.2 = true
      · simp only [hcont, if_true]
        intro hmem
        rcases List.mem_cons.mp hmem with hmem | hmem
        · exact Effect.noConfusion hmem
        · exact statsMentionSection_no_increment env w botName jstYear now st
            (ev.source.groupId.getD "") (msgText ev) (msgTypeIsText ev)
            ev.replyToken g u ym hmem
      · simp only [hcont, Bool.false_eq_true, if_false, List.append_nil]
        intro hmem
        rcases List.mem_cons.mp hmem with hmem | hmem
        · exact Effect.noConfusion hmem
        · exact statsMentionSection_no_increment env w botName jstYear now st
            (ev.source.groupId.getD "") (msgText ev) (msgTypeIsText ev)
            ev.replyToken g u ym hmem
    · simp [processEvent, hguard, hallow]
  · simp [processEvent, hguard]

/-- C4 witness. -/
theorem stats_request_not_counted_witness :
    Effect.increment "G" "U12345678" "2026-03" ∉
      (processEvent envW wFail "Bot" "2026-03" 2026 0 stStale evStatsW).2.1 :=
  stats_request_not_counted envW wFail "Bot" "2026-03" 2026 0 stStale evStatsW
    (by decide) "G" "U12345678" "2026-03"

/-- C10: an allowed-group text event classified as a report request whose
reply token is absent (or with no channel access token configured) produces
no reply, no counter increment and no name-cache write: the store is returned
unchanged and the trace is exactly the allow-list read. -/
theorem stats_request_without_reply_frame (env : Env) (w : World)
    (botName yearMonth : String) (jstYear : Nat) (now : Int) (st : Store)
    (ev : LineWebhookEvent) (g u : String) (ht : ev.type = "message")
    (hst : ev.source.type = "group") (hg : ev.source.groupId = some g)
    (hgne : g ≠ "") (hu : ev.source.userId = some u) (hune : u ≠ "")
    (hallow : is_group_allowed st g = true) (htext : msgTypeIsText ev = true)
    (hstats : (parseStatsMonthNum (msgText ev) botName).isSome = true)
    (hblock : truthy ev.replyToken = false ∨
      truthy env.lineChannelAccessToken = false) :
    processEvent env w botName yearMonth jstYear now st ev =
      (st, [Effect.allowRead g], 0) := by
  have hguard : (ev.type == "message" && ev.source.type == "group" &&
      truthy ev.source.groupId && truthy ev.source.userId) = true := by
    simp [ht, hst, hg, hu, truthy, hgne, hune]
  have hgd : ev.source.groupId.getD "" = g := by
    rw [hg]
    rfl
  have hud : ev.source.userId.getD "" = u := by
    rw [hu]
    rfl
  have hsr : isStatsRequest (msgText ev) botName = true := by
    simpa [isStatsRequest] using hstats
  have hsm : statsMentionSection env w botName jstYear now st g (msgText ev)
      (msgTypeIsText ev) ev.replyToken = (st, [], false) := by
    unfold statsMentionSection
    rcases hblock with hb | hb <;> simp [hb]
  have hcs : countSection w botName yearMonth now st g u (msgText ev)
      (msgTypeIsText ev) = (st, [], 0) :=
    countSection_skip w botName yearMonth now st g u (msgText ev)
      (msgTypeIsText ev) hsr
  simp [processEvent, hguard, hgd, hud, hallow, hsm, hcs]

/-- C10 witness. -/
theorem stats_request_without_reply_frame_witness :
    processEvent envW wFail "Bot" "2026-03" 2026 0 stStale evStatsNoTokenW =
      (stStale, [Effect.allowRead "G"], 0) :=
  stats_request_without_reply_frame envW wFail "Bot" "2026-03" 2026 0 stStale
    evStatsNoTokenW "G" "U12345678" rfl rfl rfl (by decide) rfl (by decide)
    (by decide) (by decide) (by decide) (Or.inl (by decide))
